import Mathlib

/-!
Shallow embedding of the character-creator backend (src/backend/main.py and
src/schemas.py) over an explicit document-store state, together with proofs
of the behavioural properties of its HTTP handlers.

Documents are association lists from field names to values; the store state
holds the `user` and `character` collections plus the next fresh identifier.
Handlers are pure functions from an optional store (None models the
unavailable database) and a request payload to an `Except` result and the
updated store.
-/

/-- Values stored in document fields: internal object identifiers, strings,
string-keyed maps (the model of the open-ended `settings` dict, whose
contents no endpoint inspects), and null. -/
inductive Value where
  | oid (n : Nat)
  | vstr (s : String)
  | vmap (kvs : List (String × String))
  | vnull
deriving DecidableEq, Repr

/-- A document is an ordered association list of field names to values,
the model of a Python dict (keys unique in all documents the system builds). -/
abbrev Doc := List (String × Value)

/-- Model of Python `d.get(k)`: the value at the first occurrence of key `k`. -/
def docGet (k : String) : Doc → Option Value
  | [] => none
  | kv :: rest => if kv.1 = k then some kv.2 else docGet k rest

/-- Model of Python `d[k] = v`: replace the value at `k` in place if the key
is present, otherwise append the pair at the end. -/
def setKey (k : String) (v : Value) : Doc → Doc
  | [] => [(k, v)]
  | kv :: rest => if kv.1 = k then (k, v) :: rest else kv :: setKey k v rest

/-- Model of Python `d.pop(k)` restricted to its removal effect (keys are
unique in every document the system builds). -/
def eraseKey (k : String) : Doc → Doc
  | [] => []
  | kv :: rest => if kv.1 = k then eraseKey k rest else kv :: eraseKey k rest

/-- Python truthiness of a field value: ObjectIds are always truthy, strings
and dicts are truthy when nonempty, None is falsy. -/
def valueTruthy : Value → Bool
  | .oid _ => true
  | .vstr s => s != ""
  | .vmap l => !l.isEmpty
  | .vnull => false

/-- Python truthiness of an optional document (`if existing:`): None and the
empty dict are falsy. -/
def optDocTruthy : Option Doc → Bool
  | none => false
  | some d => !d.isEmpty

/-- Model of Python `str(v)` on stored values; on an ObjectId it yields the
identifier's string form. -/
def pyStr : Value → String
  | .oid n => Nat.repr n
  | .vstr s => s
  | .vmap _ => "dict"
  | .vnull => "None"

/-- Model of `bson.ObjectId(s)`: parses a structurally valid identifier
string back to the underlying identifier, failing on malformed input.
Identifier strings in this embedding are decimal numerals, so that
`str(ObjectId)` round-trips exactly as in bson. -/
def objectId? (s : String) : Option Nat := s.toNat?

/-- Model of `hashlib.sha256(pw.encode("utf-8")).hexdigest()`, an external
library call: an injective deterministic digest. No claim depends on the
concrete SHA-256 output, only on the digest being a fixed pure function of
the password. -/
def hash_password (pw : String) : String := "sha256:" ++ pw

/-- Model of `email.split("@")[0]`: the part of the string before the first
`@`, or the whole string when none occurs. -/
def localPart (email : String) : String := (email.splitOn "@").headD ""

/-- Mongo equality filter: every filter pair must match the document's value
at that key exactly. -/
def docMatches (filter : Doc) (d : Doc) : Bool :=
  filter.all (fun kv => decide (docGet kv.1 d = some kv.2))

/-- Model of pymongo `collection.find_one(filter)`: the first stored document
matching the filter, in insertion order. -/
def find_one (coll : List Doc) (filter : Doc) : Option Doc :=
  coll.find? (fun d => docMatches filter d)

/-- Model of pymongo `collection.update_one(filter, set k v)`: update the
first matching document in place; returns the matched count (0 or 1) and the
updated collection. -/
def update_one (coll : List Doc) (filter : Doc) (k : String) (v : Value) :
    Nat × List Doc :=
  match coll with
  | [] => (0, [])
  | d :: rest =>
    if docMatches filter d then (1, setKey k v d :: rest)
    else
      let r := update_one rest filter k v
      (r.1, d :: r.2)

/-- The document store state: the `user` and `character` collections and the
next fresh object identifier (object identifiers are generated by the store
and never reused). -/
structure DB where
  user : List Doc
  character : List Doc
  nextId : Nat
deriving DecidableEq, Repr

/-- Modelled from the spec: `create_document(collection, record)` of the
Persistence Gateway (database.py, which is imported by main.py but absent
from src/): serializes the record to a document, inserts it, and returns the
newly assigned identifier as an opaque string (spec section 4.1). The fresh
document carries the store-assigned `_id` followed by the record's fields. -/
def create_document (coll : List Doc) (nextId : Nat) (fields : Doc) :
    List Doc × String :=
  (coll ++ [("_id", Value.oid nextId) :: fields], Nat.repr nextId)

/-- Modelled from the spec: `get_documents(collection, filter, limit)` of the
Persistence Gateway (database.py, absent from src/): all documents matching
the equality filter, in store order, up to `limit`; empty when nothing
matches (spec section 4.1). -/
def get_documents (coll : List Doc) (filter : Doc) (limit : Nat) : List Doc :=
  (coll.filter (fun d => docMatches filter d)).take limit

/-- Serialization of the `User` record (schemas.py) in field order. -/
def userFields (email username password_hash plan : String) : Doc :=
  [("email", Value.vstr email), ("username", Value.vstr username),
   ("password_hash", Value.vstr password_hash), ("plan", Value.vstr plan)]

/-- Serialization of the `Character` record (schemas.py) in field order. -/
def characterFields (user_id prompt : String) (settings : List (String × String))
    (preview_url : String) : Doc :=
  [("user_id", Value.vstr user_id), ("prompt", Value.vstr prompt),
   ("settings", Value.vmap settings), ("preview_url", Value.vstr preview_url)]

/-- An HTTP error response: status code and detail string. -/
structure Err where
  status : Nat
  detail : String
deriving DecidableEq, Repr

def dbUnavailable : Err := ⟨500, "Database not available"⟩

def emailRegistered : Err := ⟨400, "Email already registered"⟩

def invalidCredentials : Err := ⟨401, "Invalid credentials"⟩

def userNotFound : Err := ⟨404, "User not found"⟩

def invalidUserId : Err := ⟨400, "Invalid user id"⟩

def invalidPlanErr : Err := ⟨400, "Invalid plan"⟩

/-- Model of the `bson.errors.InvalidId` exception raised by the `ObjectId`
constructor on a malformed string; it is not itself an HTTP response, it is
always caught by the handler's `except` clause. -/
def invalidOidExn : Err := ⟨0, "bson.errors.InvalidId"⟩

/-- Model of an uncaught internal exception (an unhandled 500); this branch
is unreachable in the flows below. -/
def internalError : Err := ⟨500, "Internal Server Error"⟩

/-- Request body of the auth endpoints. -/
structure AuthPayload where
  email : String
  password : String
  username : Option String
deriving DecidableEq, Repr

/-- Request body of the character-generation endpoint. -/
structure CharacterPayload where
  prompt : String
  settings : List (String × String)
deriving DecidableEq, Repr

/-- Request body of the plan-update endpoint. -/
structure PlanPayload where
  user_id : String
  plan : String
deriving DecidableEq, Repr

/-- Embedding of `to_str_id` (main.py): on a truthy document whose `_id` is
truthy, pop `_id` and set `id` to its string form; otherwise return the
document unchanged. -/
def to_str_id (d : Doc) : Doc :=
  if d.isEmpty then d
  else
    match docGet "_id" d with
    | some v =>
      if valueTruthy v then setKey "id" (Value.vstr (pyStr v)) (eraseKey "_id" d)
      else d
    | none => d

/-- Lifting of `to_str_id` to the optional document returned by `find_one`
(`to_str_id(None)` returns None). -/
def to_str_idOpt : Option Doc → Option Doc
  | none => none
  | some d => some (to_str_id d)

/-- The fixed placeholder preview URL of the stubbed generation pipeline. -/
def previewPlaceholder : String :=
  "https://images.unsplash.com/photo-1542272604-787c3835535d?q=80&w=1200&auto=format&fit=crop"

/-- Embedding of the `POST /api/auth/signup` handler (main.py `signup`):
availability check, duplicate-email lookup, username default, digest,
insert through the gateway, re-read by the returned id, translate. -/
def signup (db? : Option DB) (p : AuthPayload) :
    Except Err (Option Doc) × Option DB :=
  match db? with
  | none => (.error dbUnavailable, none)
  | some db =>
    let existing := find_one db.user [("email", Value.vstr p.email)]
    if optDocTruthy existing then (.error emailRegistered, some db)
    else
      let uname :=
        match p.username with
        | some u => if u = "" then localPart p.email else u
        | none => localPart p.email
      let ins := create_document db.user db.nextId
        (userFields p.email uname (hash_password p.password) "free")
      let db' : DB := { db with user := ins.1, nextId := db.nextId + 1 }
      match objectId? ins.2 with
      | none => (.error internalError, some db')
      | some m =>
        (.ok (to_str_idOpt (find_one db'.user [("_id", Value.oid m)])), some db')

/-- Embedding of the `POST /api/auth/login` handler (main.py `login`):
availability check, then lookup by exact email and password digest. -/
def login (db? : Option DB) (p : AuthPayload) : Except Err Doc :=
  match db? with
  | none => .error dbUnavailable
  | some db =>
    match find_one db.user
        [("email", Value.vstr p.email),
         ("password_hash", Value.vstr (hash_password p.password))] with
    | none => .error invalidCredentials
    | some u => if u.isEmpty then .error invalidCredentials else .ok (to_str_id u)

/-- The body of the `try` block of the `GET /api/me` handler: parse the id
(the ObjectId constructor raising on malformed input), look the user up, and
either raise the 404 HTTPException or return the translated document. -/
def meInner (db : DB) (user_id : String) : Except Err Doc :=
  match objectId? user_id with
  | none => .error invalidOidExn
  | some n =>
    match find_one db.user [("_id", Value.oid n)] with
    | none => .error userNotFound
    | some u => if u.isEmpty then .error userNotFound else .ok (to_str_id u)

/-- Embedding of the `GET /api/me` handler (main.py `me`): availability
check, then the `try` body; the handler's `except Exception` clause catches
every exception raised inside the `try` — the `HTTPException(404)` it itself
raises included, since FastAPI's HTTPException subclasses Exception — and
replaces it with the 400 "Invalid user id" response. -/
def me (db? : Option DB) (user_id : String) : Except Err Doc :=
  match db? with
  | none => .error dbUnavailable
  | some db =>
    match meInner db user_id with
    | .ok d => .ok d
    | .error _ => .error invalidUserId

/-- Embedding of the `POST /api/characters/generate` handler (main.py
`generate_character`): availability check, sentinel owner default via
truthiness of the optional query parameter, fixed placeholder preview,
insert through the gateway, re-read, translate. -/
def generate_character (db? : Option DB) (p : CharacterPayload)
    (user_id : Option String) : Except Err (Option Doc) × Option DB :=
  match db? with
  | none => (.error dbUnavailable, none)
  | some db =>
    let uid :=
      match user_id with
      | some u => if u = "" then "guest" else u
      | none => "guest"
    let ins := create_document db.character db.nextId
      (characterFields uid p.prompt p.settings previewPlaceholder)
    let db' : DB := { db with character := ins.1, nextId := db.nextId + 1 }
    match objectId? ins.2 with
    | none => (.error internalError, some db')
    | some m =>
      (.ok (to_str_idOpt (find_one db'.character [("_id", Value.oid m)])),
       some db')

/-- Embedding of the `GET /api/characters` handler (main.py
`list_characters`): availability check, gateway query by exact `user_id`
with the limit, each result translated. -/
def list_characters (db? : Option DB) (user_id : String) (limit : Nat) :
    Except Err (List Doc) :=
  match db? with
  | none => .error dbUnavailable
  | some db =>
    .ok ((get_documents db.character [("user_id", Value.vstr user_id)] limit).map
      to_str_id)

/-- The body of the `try` block of the `POST /api/user/plan` handler: parse
the id, update the first matching user's plan, raise the 404 HTTPException
when nothing matched, otherwise re-read and return the translated user. -/
def update_planInner (db : DB) (p : PlanPayload) :
    Except Err (Option Doc) × DB :=
  match objectId? p.user_id with
  | none => (.error invalidOidExn, db)
  | some n =>
    let r := update_one db.user [("_id", Value.oid n)] "plan" (Value.vstr p.plan)
    let db' : DB := { db with user := r.2 }
    if r.1 = 0 then (.error userNotFound, db')
    else (.ok (to_str_idOpt (find_one db'.user [("_id", Value.oid n)])), db')

/-- Embedding of the `POST /api/user/plan` handler (main.py `update_plan`):
availability check, plan validation against the three-value enumeration,
then the `try` body; as in `me`, the `except Exception` clause catches every
exception from the `try` — its own `HTTPException(404)` included — and
replaces it with the 400 "Invalid user id" response. -/
def update_plan (db? : Option DB) (p : PlanPayload) :
    Except Err (Option Doc) × Option DB :=
  match db? with
  | none => (.error dbUnavailable, none)
  | some db =>
    if p.plan ∈ (["free", "plus", "pro"] : List String) then
      match update_planInner db p with
      | (.ok d, db') => (.ok d, some db')
      | (.error _, db') => (.error invalidUserId, some db')
    else (.error invalidPlanErr, some db)
/-- One document's part of the store freshness invariant: its `_id`, when it
is an object id, lies strictly below the next identifier to be assigned. -/
def docOidLt (bound : Nat) (d : Doc) : Bool :=
  match docGet "_id" d with
  | some (.oid k) => decide (k < bound)
  | _ => true

/-- Store freshness invariant: object identifiers are generated by the store
and never reused, so every stored `_id` is below `nextId`. Every store
reachable through the gateway's create operation satisfies this. -/
def DB.fresh (db : DB) : Bool :=
  db.user.all (docOidLt db.nextId) && db.character.all (docOidLt db.nextId)

/-- One stored document's well-formedness for identifier translation: it
carries a store-generated `_id` object id and no client-visible `id` field.
Every document built by the gateway's create operation satisfies this. -/
def docIdWF (d : Doc) : Bool :=
  (match docGet "_id" d with
   | some (.oid _) => true
   | _ => false) && (docGet "id" d).isNone

/-- Store well-formedness for identifier translation, collectionwise. -/
def DB.storedWF (db : DB) : Bool :=
  db.user.all docIdWF && db.character.all docIdWF

/-- The response-document shape demanded of identifier translation: a
string-typed `id` field is present and the store's native `_id` field is
absent. -/
def idTranslated (d : Doc) : Prop :=
  (∃ s, docGet "id" d = some (Value.vstr s)) ∧ docGet "_id" d = none

/-- The user document a successful signup inserts. -/
def newUserDoc (db : DB) (p : AuthPayload) : Doc :=
  ("_id", Value.oid db.nextId) ::
    userFields p.email
      (match p.username with
       | some u => if u = "" then localPart p.email else u
       | none => localPart p.email)
      (hash_password p.password) "free"

/-- The character document a generate call inserts: the owner defaults to
the sentinel `"guest"` when the optional identity is absent or empty. -/
def newCharDoc (db : DB) (p : CharacterPayload) (o : Option String) : Doc :=
  ("_id", Value.oid db.nextId) ::
    characterFields
      (match o with
       | some u => if u = "" then "guest" else u
       | none => "guest")
      p.prompt p.settings previewPlaceholder

/-- A concrete stored user document, for concrete instantiations. -/
def userDocW : Doc :=
  ("_id", Value.oid 1) :: userFields "a@x.com" "a" (hash_password "pw1") "free"

/-- A concrete one-user store, for concrete instantiations. -/
def dbW : DB := ⟨[userDocW], [], 2⟩

/-- The empty store, for concrete instantiations. -/
def dbEmpty : DB := ⟨[], [], 1⟩

/-! Decimal printing and parsing of store identifiers. -/

theorem toDigitsCore_append (fuel : Nat) : ∀ (n : Nat) (ds : List Char),
    Nat.toDigitsCore 10 fuel n ds = Nat.toDigitsCore 10 fuel n [] ++ ds := by
  induction fuel with
  | zero => intro n ds; simp [Nat.toDigitsCore]
  | succ f ih =>
    intro n ds
    simp only [Nat.toDigitsCore]
    by_cases h : n / 10 = 0
    · simp [h]
    · simp only [h, if_false]
      rw [ih (n / 10) (Nat.digitChar (n % 10) :: ds),
          ih (n / 10) [Nat.digitChar (n % 10)]]
      simp

theorem toDigitsCore_fuel (n : Nat) : ∀ (f f' : Nat) (ds : List Char),
    n < f → n < f' →
    Nat.toDigitsCore 10 f n ds = Nat.toDigitsCore 10 f' n ds := by
  induction n using Nat.strong_induction_on with
  | _ n ih =>
    intro f f' ds hf hf'
    match f, f', hf, hf' with
    | g + 1, g' + 1, hf, hf' =>
      simp only [Nat.toDigitsCore]
      by_cases h : n / 10 = 0
      · simp [h]
      · simp only [h, if_false]
        have hn : 0 < n := by
          rcases Nat.eq_zero_or_pos n with h0 | h0
          · subst h0; simp at h
          · exact h0
        have hd : n / 10 < n := Nat.div_lt_self hn (by omega)
        exact ih (n / 10) hd g g' _ (by omega) (by omega)

theorem toDigits_eq (n : Nat) :
    Nat.toDigits 10 n =
      if n < 10 then [Nat.digitChar n]
      else Nat.toDigits 10 (n / 10) ++ [Nat.digitChar (n % 10)] := by
  rw [Nat.toDigits]
  simp only [Nat.toDigitsCore]
  by_cases h : n / 10 = 0
  · have h10 : n < 10 := (Nat.div_eq_zero_iff (by omega)).1 h
    rw [if_pos h, if_pos h10, Nat.mod_eq_of_lt h10]
  · have h10 : ¬ n < 10 := by
      intro hlt
      exact h (Nat.div_eq_of_lt hlt)
    rw [if_neg h, if_neg h10]
    have hn : 0 < n := by omega
    have hd : n / 10 < n := Nat.div_lt_self hn (by omega)
    rw [toDigitsCore_append n (n / 10) [Nat.digitChar (n % 10)],
        toDigitsCore_fuel (n / 10) n (n / 10 + 1) [] hd (Nat.lt_succ_self _)]
    rfl

theorem digitChar_val (r : Nat) (h : r < 10) :
    (Nat.digitChar r).toNat - '0'.toNat = r := by
  interval_cases r <;> decide

theorem digitChar_isDigit (r : Nat) (h : r < 10) :
    (Nat.digitChar r).isDigit = true := by
  interval_cases r <;> decide

theorem toDigits_ne_nil (n : Nat) : Nat.toDigits 10 n ≠ [] := by
  rw [toDigits_eq]
  by_cases h : n < 10 <;> simp [h]

theorem toDigits_all_digit (n : Nat) :
    ∀ c ∈ Nat.toDigits 10 n, c.isDigit = true := by
  induction n using Nat.strong_induction_on with
  | _ n ih =>
    rw [toDigits_eq]
    by_cases h : n < 10
    · rw [if_pos h]
      intro c hc
      rw [List.mem_singleton] at hc
      subst hc
      exact digitChar_isDigit n h
    · rw [if_neg h]
      intro c hc
      rcases List.mem_append.1 hc with h1 | h1
      · exact ih (n / 10) (Nat.div_lt_self (by omega) (by omega)) c h1
      · rw [List.mem_singleton] at h1
        subst h1
        exact digitChar_isDigit _ (Nat.mod_lt _ (by omega))

theorem foldl_toDigits (n : Nat) : ∀ a : Nat,
    List.foldl (fun m c => m * 10 + (c.toNat - '0'.toNat)) a (Nat.toDigits 10 n)
      = a * 10 ^ (Nat.toDigits 10 n).length + n := by
  induction n using Nat.strong_induction_on with
  | _ n ih =>
    intro a
    rw [toDigits_eq]
    by_cases h : n < 10
    · rw [if_pos h]
      simp only [List.foldl_cons, List.foldl_nil, List.length_singleton, pow_one]
      rw [digitChar_val n h]
    · rw [if_neg h]
      have hd : n / 10 < n := Nat.div_lt_self (by omega) (by omega)
      rw [List.foldl_append, ih (n / 10) hd a]
      simp only [List.foldl_cons, List.foldl_nil, List.length_append,
        List.length_singleton]
      rw [digitChar_val (n % 10) (Nat.mod_lt _ (by omega)), pow_succ]
      have hsplit : n / 10 * 10 + n % 10 = n := by omega
      calc (a * 10 ^ (Nat.toDigits 10 (n / 10)).length + n / 10) * 10 + n % 10
          = a * (10 ^ (Nat.toDigits 10 (n / 10)).length * 10)
            + (n / 10 * 10 + n % 10) := by ring
        _ = a * (10 ^ (Nat.toDigits 10 (n / 10)).length * 10) + n := by
            rw [hsplit]

theorem repr_toNat? (n : Nat) : (Nat.repr n).toNat? = some n := by
  have hdata : (Nat.repr n).data = Nat.toDigits 10 n := rfl
  have hne : Nat.repr n ≠ "" := by
    intro h
    have : (Nat.repr n).data = [] := by rw [h]
    rw [hdata] at this
    exact toDigits_ne_nil n this
  have hempty : (Nat.repr n).isEmpty = false := by
    rw [Bool.eq_false_iff]
    intro h
    exact hne ((String.isEmpty_iff _).1 h)
  have hall : (Nat.repr n).all (·.isDigit) = true := by
    rw [String.all_eq, hdata]
    rw [List.all_eq_true]
    intro c hc
    exact toDigits_all_digit n c hc
  have hnat : (Nat.repr n).isNat = true := by
    rw [String.isNat, hempty, hall]
    rfl
  rw [String.toNat?, if_pos hnat]
  congr 1
  rw [String.foldl_eq, hdata]
  have := foldl_toDigits n 0
  simpa using this

/-- The string form of a store-generated identifier parses back to the
identifier: `ObjectId(str(oid))` round-trips. -/
theorem objectId?_repr (n : Nat) : objectId? (Nat.repr n) = some n :=
  repr_toNat? n

/-- String emptiness agrees with emptiness of the underlying character
list. -/
theorem isEmpty_eq_data (s : String) : s.isEmpty = s.data.isEmpty := by
  cases hs : s.isEmpty with
  | true =>
    have h1 : s = "" := (String.isEmpty_iff _).1 hs
    subst h1
    rfl
  | false =>
    cases hd : s.data.isEmpty with
    | false => rfl
    | true =>
      exfalso
      have h2 : s.data = [] := by simpa using hd
      have h3 : s = "" := by
        apply String.ext
        simpa using h2
      subst h3
      have h4 : ("" : String).isEmpty = true := rfl
      rw [h4] at hs
      exact Bool.noConfusion hs

/-- Computation rule for `String.toNat?` over the underlying character list
(the positional string primitives do not reduce definitionally). -/
theorem toNat?_via_data (s : String) :
    s.toNat? = if !(s.data.isEmpty) && s.data.all (·.isDigit)
      then some (s.data.foldl (fun n c => n * 10 + (c.toNat - '0'.toNat)) 0)
      else none := by
  rw [String.toNat?, String.isNat, String.all_eq, String.foldl_eq, isEmpty_eq_data]

/-! Association-list and translation lemmas. -/

theorem docGet_setKey_same (k : String) (v : Value) (d : Doc) :
    docGet k (setKey k v d) = some v := by
  induction d with
  | nil => simp [setKey, docGet]
  | cons kv rest ih =>
    by_cases h : kv.1 = k
    · simp [setKey, h, docGet]
    · simp [setKey, h, docGet, ih]

theorem docGet_setKey_other (k k' : String) (v : Value) (d : Doc)
    (h : k' ≠ k) : docGet k' (setKey k v d) = docGet k' d := by
  induction d with
  | nil => simp [setKey, docGet, Ne.symm h]
  | cons kv rest ih =>
    by_cases hk : kv.1 = k
    · subst hk
      simp [setKey, docGet, Ne.symm h]
    · simp [setKey, hk, docGet, ih]

theorem docGet_eraseKey_same (k : String) (d : Doc) :
    docGet k (eraseKey k d) = none := by
  induction d with
  | nil => rfl
  | cons kv rest ih =>
    by_cases h : kv.1 = k
    · simp [eraseKey, h, ih]
    · simp [eraseKey, h, docGet, ih]

theorem docGet_eraseKey_other (k k' : String) (d : Doc) (h : k' ≠ k) :
    docGet k' (eraseKey k d) = docGet k' d := by
  induction d with
  | nil => rfl
  | cons kv rest ih =>
    by_cases hk : kv.1 = k
    · subst hk
      simp [eraseKey, docGet, Ne.symm h, ih]
    · simp [eraseKey, hk, docGet, ih]

theorem isEmpty_false_of_docGet (d : Doc) (k : String) (v : Value)
    (h : docGet k d = some v) : d.isEmpty = false := by
  cases d with
  | nil => simp [docGet] at h
  | cons kv rest => rfl

theorem to_str_id_of_oid (d : Doc) (n : Nat)
    (h : docGet "_id" d = some (Value.oid n)) :
    to_str_id d = setKey "id" (Value.vstr (Nat.repr n)) (eraseKey "_id" d) := by
  have hemp : d.isEmpty = false := isEmpty_false_of_docGet d _ _ h
  simp [to_str_id, hemp, h, valueTruthy, pyStr]

theorem to_str_id_translated (d : Doc) (n : Nat)
    (h : docGet "_id" d = some (Value.oid n)) :
    docGet "id" (to_str_id d) = some (Value.vstr (Nat.repr n)) ∧
    docGet "_id" (to_str_id d) = none := by
  rw [to_str_id_of_oid d n h]
  constructor
  · exact docGet_setKey_same _ _ _
  · rw [docGet_setKey_other _ _ _ _ (by decide)]
    exact docGet_eraseKey_same _ _

theorem docGet_to_str_id_other (d : Doc) (k : String)
    (h1 : k ≠ "id") (h2 : k ≠ "_id") :
    docGet k (to_str_id d) = docGet k d := by
  unfold to_str_id
  split
  · rfl
  · split
    · split
      · rw [docGet_setKey_other _ _ _ _ h1, docGet_eraseKey_other _ _ _ h2]
      · rfl
    · rfl

theorem docMatches_iff (f : Doc) (d : Doc) :
    docMatches f d = true ↔ ∀ kv ∈ f, docGet kv.1 d = some kv.2 := by
  simp [docMatches, List.all_eq_true]

theorem find_one_eq_none (coll : List Doc) (f : Doc) :
    find_one coll f = none ↔ ∀ d ∈ coll, docMatches f d = false := by
  simp [find_one, List.find?_eq_none]

theorem find_one_append (l1 l2 : List Doc) (f : Doc) :
    find_one (l1 ++ l2) f = (find_one l1 f).or (find_one l2 f) :=
  List.find?_append

theorem find_one_some (coll : List Doc) (f : Doc) (d : Doc)
    (h : find_one coll f = some d) : d ∈ coll ∧ docMatches f d = true :=
  ⟨List.mem_of_find?_eq_some h, List.find?_some h⟩

theorem update_one_of_none (coll : List Doc) (f : Doc) (k : String) (v : Value)
    (h : ∀ d ∈ coll, docMatches f d = false) :
    update_one coll f k v = (0, coll) := by
  induction coll with
  | nil => rfl
  | cons d rest ih =>
    have h1 := h d (List.mem_cons_self d rest)
    have h2 := ih (fun e he => h e (List.mem_cons_of_mem d he))
    simp [update_one, h1, h2]

theorem update_one_found (coll : List Doc) (f : Doc) (k : String) (v : Value)
    (h : (update_one coll f k v).1 ≠ 0) :
    ∃ l1 d l2, coll = l1 ++ d :: l2 ∧ docMatches f d = true ∧
      (∀ e ∈ l1, docMatches f e = false) ∧
      (update_one coll f k v).2 = l1 ++ setKey k v d :: l2 := by
  induction coll with
  | nil => simp [update_one] at h
  | cons d rest ih =>
    by_cases hm : docMatches f d = true
    · exact ⟨[], d, rest, by simp, hm, by simp, by simp [update_one, hm]⟩
    · have hm' : docMatches f d = false := by simpa using hm
      have h2 : (update_one rest f k v).1 ≠ 0 := by
        simpa [update_one, hm'] using h
      obtain ⟨l1, d0, l2, he, hmm, hall, hres⟩ := ih h2
      refine ⟨d :: l1, d0, l2, by simp [he], hmm, ?_, ?_⟩
      · intro e he'
        rcases List.mem_cons.1 he' with rfl | hh
        · exact hm'
        · exact hall e hh
      · simp [update_one, hm', hres]

theorem mem_update_one (coll : List Doc) (f : Doc) (k : String) (v : Value)
    (u : Doc) (hu : u ∈ (update_one coll f k v).2) :
    ∃ w, w ∈ coll ∧ (u = w ∨ u = setKey k v w) := by
  induction coll with
  | nil => simp [update_one] at hu
  | cons d rest ih =>
    by_cases hm : docMatches f d = true
    · simp only [update_one, hm, if_true, List.mem_cons] at hu
      rcases hu with rfl | hu
      · exact ⟨d, List.mem_cons_self d rest, Or.inr rfl⟩
      · exact ⟨u, List.mem_cons_of_mem d hu, Or.inl rfl⟩
    · have hm' : docMatches f d = false := by simpa using hm
      simp only [update_one, hm', Bool.false_eq_true, if_false, List.mem_cons] at hu
      rcases hu with rfl | hu
      · exact ⟨u, List.mem_cons_self u rest, Or.inl rfl⟩
      · obtain ⟨w, hw, ho⟩ := ih hu
        exact ⟨w, List.mem_cons_of_mem d hw, ho⟩

/-! Behavioural lemmas about the handlers. -/

theorem fresh_no_id_match (coll : List Doc) (bound n : Nat)
    (hf : coll.all (docOidLt bound) = true) (hn : bound ≤ n) :
    ∀ d ∈ coll, docMatches [("_id", Value.oid n)] d = false := by
  intro d hd
  have h1 : docOidLt bound d = true := (List.all_eq_true.1 hf) d hd
  rw [Bool.eq_false_iff]
  intro hm
  have h2 : docGet "_id" d = some (Value.oid n) :=
    (docMatches_iff _ _).1 hm ("_id", Value.oid n) (List.mem_singleton_self _)
  rw [docOidLt, h2] at h1
  have := of_decide_eq_true h1
  omega

theorem docMatches_newUserDoc_id (db : DB) (p : AuthPayload) :
    docMatches [("_id", Value.oid db.nextId)] (newUserDoc db p) = true := by
  simp [docMatches, newUserDoc, userFields, docGet]

theorem signup_success (db : DB) (p : AuthPayload)
    (hfresh : db.fresh = true)
    (hnew : find_one db.user [("email", Value.vstr p.email)] = none) :
    signup (some db) p =
      (.ok (some (to_str_id (newUserDoc db p))),
       some ⟨db.user ++ [newUserDoc db p], db.character, db.nextId + 1⟩) := by
  have hfc := hfresh
  rw [DB.fresh, Bool.and_eq_true] at hfc
  have hold : find_one db.user [("_id", Value.oid db.nextId)] = none :=
    (find_one_eq_none _ _).2
      (fresh_no_id_match db.user db.nextId db.nextId hfc.1 (le_refl _))
  have hre : find_one (db.user ++ [newUserDoc db p])
      [("_id", Value.oid db.nextId)] = some (newUserDoc db p) := by
    rw [find_one_append, hold, Option.none_or]
    unfold find_one
    rw [List.find?_cons_of_pos _ (docMatches_newUserDoc_id db p)]
  simp only [signup, hnew, optDocTruthy, Bool.false_eq_true, if_false,
    create_document, objectId?_repr, newUserDoc, userFields] at *
  rw [hre]
  rfl

/-! Claim theorems. -/

/-- C1: the claim says `GET /me` on a structurally valid identifier that
matches no stored user returns NotFound (404), and on a structurally invalid
identifier returns BadRequest (400). The code violates the first half: the
`try` body does raise the 404 HTTPException (`meInner` below), but the
handler's own `except Exception` clause catches it — FastAPI's HTTPException
subclasses Exception — and replaces it with the 400 "Invalid user id"
response, so a valid-but-absent identifier is answered with 400, not 404.
The structurally-invalid half behaves as claimed. -/
theorem me_notFound_swallowed_to_400 :
    meInner dbW "2" = .error userNotFound ∧
    me (some dbW) "2" = .error invalidUserId ∧
    me (some dbW) "zzz" = .error invalidUserId ∧
    invalidUserId.status = 400 ∧ userNotFound.status = 404 := by
  have h2 : objectId? "2" = some 2 := by
    rw [objectId?, toNat?_via_data]
    rfl
  have hz : objectId? "zzz" = none := by
    rw [objectId?, toNat?_via_data]
    rfl
  refine ⟨?_, ?_, ?_, rfl, rfl⟩
  · simp only [meInner, h2]
    try rfl
  · simp only [me, meInner, h2]
    try rfl
  · simp only [me, meInner, hz]
    try rfl

/-- C2: a plan-update request whose plan value is outside the enumeration
`free | plus | pro` is rejected with the BadRequest error (400, "Invalid
plan") before the store is touched, and the store — every stored user
document and in particular every stored plan — is returned unchanged. -/
theorem update_plan_invalid_plan_rejected (db : DB) (p : PlanPayload)
    (h : p.plan ∉ (["free", "plus", "pro"] : List String)) :
    update_plan (some db) p = (.error invalidPlanErr, some db) := by
  simp only [update_plan]
  rw [if_neg h]

theorem update_plan_invalid_plan_rejected_witness :
    (("premium" : String) ∉ (["free", "plus", "pro"] : List String)) ∧
    update_plan (some dbW) ⟨"1", "premium"⟩ = (.error invalidPlanErr, some dbW) :=
  ⟨by decide, update_plan_invalid_plan_rejected dbW ⟨"1", "premium"⟩ (by decide)⟩

/-- C8: with the store unavailable, each of the six data endpoints fails
with the uniform 500 "Database not available" error; the availability check
is the first statement of every handler, so no lookup, insert or update is
performed and no store state exists to change (the state component is
returned untouched). -/
theorem handlers_unavailable_short_circuit (pa : AuthPayload)
    (pc : CharacterPayload) (pp : PlanPayload) (uid s : String) (lim : Nat)
    (ouid : Option String) :
    signup none pa = (.error dbUnavailable, none) ∧
    login none pa = .error dbUnavailable ∧
    me none s = .error dbUnavailable ∧
    generate_character none pc ouid = (.error dbUnavailable, none) ∧
    list_characters none uid lim = .error dbUnavailable ∧
    update_plan none pp = (.error dbUnavailable, none) :=
  ⟨rfl, rfl, rfl, rfl, rfl, rfl⟩

/-- C3: signing up twice with the same email, the first attempt succeeding,
makes the second attempt fail with the duplicate-email Conflict error of the
code (400, "Email already registered") and leaves the store unchanged — in
particular no new user document is inserted. Freshness of the store is the
invariant every reachable store satisfies. -/
theorem signup_duplicate_email_conflict (db : DB) (p q : AuthPayload)
    (hfresh : db.fresh = true)
    (hnew : find_one db.user [("email", Value.vstr p.email)] = none)
    (heq : q.email = p.email) :
    ∃ d db1, signup (some db) p = (.ok (some d), some db1) ∧
      signup (some db1) q = (.error emailRegistered, some db1) := by
  refine ⟨to_str_id (newUserDoc db p),
    ⟨db.user ++ [newUserDoc db p], db.character, db.nextId + 1⟩,
    signup_success db p hfresh hnew, ?_⟩
  have hm : docMatches [("email", Value.vstr p.email)] (newUserDoc db p) = true := by
    simp [docMatches, newUserDoc, userFields, docGet]
  have hfind : find_one (db.user ++ [newUserDoc db p])
      [("email", Value.vstr q.email)] = some (newUserDoc db p) := by
    rw [heq, find_one_append, hnew, Option.none_or]
    unfold find_one
    rw [List.find?_cons_of_pos _ hm]
  simp only [signup, hfind, optDocTruthy]
  simp [newUserDoc]

theorem signup_duplicate_email_conflict_witness :
    dbEmpty.fresh = true ∧
    find_one dbEmpty.user [("email", Value.vstr "a@x.com")] = none ∧
    (∃ d db1,
      signup (some dbEmpty) ⟨"a@x.com", "pw1", none⟩ = (.ok (some d), some db1) ∧
      signup (some db1) ⟨"a@x.com", "pw2", some "bob"⟩ =
        (.error emailRegistered, some db1)) :=
  ⟨by decide, rfl,
   signup_duplicate_email_conflict dbEmpty ⟨"a@x.com", "pw1", none⟩
     ⟨"a@x.com", "pw2", some "bob"⟩ (by decide) rfl rfl⟩

/-- C4: for a signup payload whose email is not already stored, signup
succeeds, and a subsequent login with the same email and password succeeds
(it does not return Unauthorized): it returns exactly the signup response
document, whose email is the signup email and whose `id` is the string form
of the store-assigned identifier — the id signup returned. -/
theorem signup_then_login_roundtrip (db : DB) (p q : AuthPayload)
    (hfresh : db.fresh = true)
    (hnew : find_one db.user [("email", Value.vstr p.email)] = none)
    (hqe : q.email = p.email) (hqp : q.password = p.password) :
    ∃ d db1, signup (some db) p = (.ok (some d), some db1) ∧
      login (some db1) q = .ok d ∧
      docGet "email" d = some (Value.vstr p.email) ∧
      docGet "id" d = some (Value.vstr (Nat.repr db.nextId)) := by
  have hidnew : docGet "_id" (newUserDoc db p) = some (Value.oid db.nextId) := by
    simp [newUserDoc, docGet]
  refine ⟨to_str_id (newUserDoc db p),
    ⟨db.user ++ [newUserDoc db p], db.character, db.nextId + 1⟩,
    signup_success db p hfresh hnew, ?_, ?_, ?_⟩
  · have hm2 : docMatches
        [("email", Value.vstr p.email),
         ("password_hash", Value.vstr (hash_password p.password))]
        (newUserDoc db p) = true := by
      simp [docMatches, newUserDoc, userFields, docGet]
    have hold2 : ∀ d ∈ db.user, docMatches
        [("email", Value.vstr p.email),
         ("password_hash", Value.vstr (hash_password p.password))] d = false := by
      intro d hd
      rw [Bool.eq_false_iff]
      intro hmm
      have he : docGet "email" d = some (Value.vstr p.email) :=
        (docMatches_iff _ _).1 hmm ("email", Value.vstr p.email)
          (List.mem_cons_self _ _)
      have hsingle : docMatches [("email", Value.vstr p.email)] d = true := by
        rw [docMatches_iff]
        intro kv hkv
        rw [List.mem_singleton] at hkv
        subst hkv
        exact he
      have hnone := (find_one_eq_none _ _).1 hnew d hd
      rw [hnone] at hsingle
      exact Bool.noConfusion hsingle
    have hfind2 : find_one (db.user ++ [newUserDoc db p])
        [("email", Value.vstr p.email),
         ("password_hash", Value.vstr (hash_password p.password))]
        = some (newUserDoc db p) := by
      rw [find_one_append, (find_one_eq_none _ _).2 hold2, Option.none_or]
      unfold find_one
      rw [List.find?_cons_of_pos _ hm2]
    simp only [login, hqe, hqp, hfind2]
    simp [newUserDoc]
  · rw [docGet_to_str_id_other _ _ (by decide) (by decide)]
    simp [newUserDoc, userFields, docGet]
  · exact (to_str_id_translated _ _ hidnew).1

theorem signup_then_login_roundtrip_witness :
    dbEmpty.fresh = true ∧
    find_one dbEmpty.user [("email", Value.vstr "a@x.com")] = none ∧
    (∃ d db1,
      signup (some dbEmpty) ⟨"a@x.com", "pw1", none⟩ = (.ok (some d), some db1) ∧
      login (some db1) ⟨"a@x.com", "pw1", none⟩ = .ok d ∧
      docGet "email" d = some (Value.vstr "a@x.com") ∧
      docGet "id" d = some (Value.vstr (Nat.repr dbEmpty.nextId))) :=
  ⟨by decide, rfl,
   signup_then_login_roundtrip dbEmpty ⟨"a@x.com", "pw1", none⟩
     ⟨"a@x.com", "pw1", none⟩ (by decide) rfl rfl rfl⟩

theorem find_one_none_of_not_truthy (coll : List Doc) (k : String) (v : Value)
    (h : optDocTruthy (find_one coll [(k, v)]) = false) :
    find_one coll [(k, v)] = none := by
  cases hf : find_one coll [(k, v)] with
  | none => rfl
  | some u =>
    exfalso
    have hm := (find_one_some _ _ _ hf).2
    have hk : docGet k u = some v :=
      (docMatches_iff _ _).1 hm (k, v) (List.mem_singleton_self _)
    have hne : u.isEmpty = false := isEmpty_false_of_docGet u k v hk
    rw [hf] at h
    simp [optDocTruthy, hne] at h

theorem signup_dup_email (db : DB) (p : AuthPayload)
    (h : optDocTruthy (find_one db.user [("email", Value.vstr p.email)]) = true) :
    signup (some db) p = (.error emailRegistered, some db) := by
  simp [signup, h]

theorem generate_success (db : DB) (p : CharacterPayload) (o : Option String)
    (hfresh : db.fresh = true) :
    generate_character (some db) p o =
      (.ok (some (to_str_id (newCharDoc db p o))),
       some ⟨db.user, db.character ++ [newCharDoc db p o], db.nextId + 1⟩) := by
  have hfc := hfresh
  rw [DB.fresh, Bool.and_eq_true] at hfc
  have hold : find_one db.character [("_id", Value.oid db.nextId)] = none :=
    (find_one_eq_none _ _).2
      (fresh_no_id_match db.character db.nextId db.nextId hfc.2 (le_refl _))
  have hmatch : docMatches [("_id", Value.oid db.nextId)] (newCharDoc db p o) = true := by
    simp [docMatches, newCharDoc, characterFields, docGet]
  have hre : find_one (db.character ++ [newCharDoc db p o])
      [("_id", Value.oid db.nextId)] = some (newCharDoc db p o) := by
    rw [find_one_append, hold, Option.none_or]
    unfold find_one
    rw [List.find?_cons_of_pos _ hmatch]
  simp only [generate_character, create_document, objectId?_repr, newCharDoc,
    characterFields] at *
  rw [hre]
  rfl

/-- C5: login succeeds exactly when some stored user matches the request
email and the digest of the request password, and then it returns that
(first such) user; otherwise — in particular on a wrong password for an
existing email — it returns the Unauthorized error (401, "Invalid
credentials"). -/
theorem login_iff_credentials_match (db : DB) (p : AuthPayload) :
    (∃ u, u ∈ db.user ∧
      docGet "email" u = some (Value.vstr p.email) ∧
      docGet "password_hash" u = some (Value.vstr (hash_password p.password)) ∧
      login (some db) p = .ok (to_str_id u))
    ∨ ((∀ u ∈ db.user,
        ¬(docGet "email" u = some (Value.vstr p.email) ∧
          docGet "password_hash" u = some (Value.vstr (hash_password p.password)))) ∧
      login (some db) p = .error invalidCredentials) := by
  cases hf : find_one db.user
      [("email", Value.vstr p.email),
       ("password_hash", Value.vstr (hash_password p.password))] with
  | some u =>
    left
    obtain ⟨hmem, hm⟩ := find_one_some _ _ _ hf
    have he : docGet "email" u = some (Value.vstr p.email) :=
      (docMatches_iff _ _).1 hm ("email", Value.vstr p.email)
        (List.mem_cons_self _ _)
    have hh : docGet "password_hash" u = some (Value.vstr (hash_password p.password)) := by
      refine (docMatches_iff _ _).1 hm
        ("password_hash", Value.vstr (hash_password p.password)) ?_
      exact List.mem_cons_of_mem _ (List.mem_singleton_self _)
    have hne : u.isEmpty = false := isEmpty_false_of_docGet u _ _ he
    refine ⟨u, hmem, he, hh, ?_⟩
    simp [login, hf, hne]
  | none =>
    right
    constructor
    · intro u hu hboth
      have hmm : docMatches
          [("email", Value.vstr p.email),
           ("password_hash", Value.vstr (hash_password p.password))] u = true := by
        rw [docMatches_iff]
        intro kv hkv
        rcases List.mem_cons.1 hkv with rfl | hkv2
        · exact hboth.1
        · rw [List.mem_singleton] at hkv2
          subst hkv2
          exact hboth.2
      have hfalse := (find_one_eq_none _ _).1 hf u hu
      rw [hfalse] at hmm
      exact Bool.noConfusion hmm
    · simp [login, hf]

/-- C6: generating a character with no user identity supplied stores it
under the literal sentinel owner `"guest"` with the fixed placeholder
preview URL, and the stored character is returned by a subsequent listing
with `user_id=guest` (whenever the limit is not exhausted by earlier guest
characters — the listing truncates at `limit`, 20 by default). -/
theorem generate_guest_retrievable (db : DB) (p : CharacterPayload)
    (limit : Nat) (hfresh : db.fresh = true)
    (hlim : (db.character.filter
      (fun d => docMatches [("user_id", Value.vstr "guest")] d)).length < limit) :
    ∃ d db1, generate_character (some db) p none = (.ok (some d), some db1) ∧
      docGet "user_id" d = some (Value.vstr "guest") ∧
      docGet "preview_url" d = some (Value.vstr previewPlaceholder) ∧
      ∃ l, list_characters (some db1) "guest" limit = .ok l ∧ d ∈ l := by
  refine ⟨to_str_id (newCharDoc db p none),
    ⟨db.user, db.character ++ [newCharDoc db p none], db.nextId + 1⟩,
    generate_success db p none hfresh, ?_, ?_, ?_⟩
  · rw [docGet_to_str_id_other _ _ (by decide) (by decide)]
    simp [newCharDoc, characterFields, docGet]
  · rw [docGet_to_str_id_other _ _ (by decide) (by decide)]
    simp [newCharDoc, characterFields, docGet]
  · refine ⟨_, rfl, ?_⟩
    apply List.mem_map_of_mem
    have hmg : docMatches [("user_id", Value.vstr "guest")]
        (newCharDoc db p none) = true := by
      simp [docMatches, newCharDoc, characterFields, docGet]
    rw [get_documents, List.filter_append]
    have hf1 : (([newCharDoc db p none] : List Doc).filter
        (fun d => docMatches [("user_id", Value.vstr "guest")] d))
        = [newCharDoc db p none] := by
      simp [List.filter, hmg]
    rw [hf1, List.take_append_eq_append_take]
    apply List.mem_append_right
    obtain ⟨m, hm⟩ : ∃ m, limit - (db.character.filter
        (fun d => docMatches [("user_id", Value.vstr "guest")] d)).length
        = m + 1 :=
      ⟨limit - (db.character.filter
        (fun d => docMatches [("user_id", Value.vstr "guest")] d)).length - 1,
       by omega⟩
    rw [hm]
    simp

theorem generate_guest_retrievable_witness :
    dbEmpty.fresh = true ∧
    (dbEmpty.character.filter
      (fun d => docMatches [("user_id", Value.vstr "guest")] d)).length < 20 ∧
    (∃ d db1,
      generate_character (some dbEmpty) ⟨"a knight", []⟩ none =
        (.ok (some d), some db1) ∧
      docGet "user_id" d = some (Value.vstr "guest") ∧
      docGet "preview_url" d = some (Value.vstr previewPlaceholder) ∧
      ∃ l, list_characters (some db1) "guest" 20 = .ok l ∧ d ∈ l) :=
  ⟨by decide, by decide,
   generate_guest_retrievable dbEmpty ⟨"a knight", []⟩ 20 (by decide) (by decide)⟩

/-- C7: for every store, query identity and limit, the character listing
returns at most `limit` documents, and every returned document's `user_id`
is exactly the queried identity. -/
theorem list_characters_limit_and_owner (db : DB) (uid : String) (limit : Nat) :
    ∃ l, list_characters (some db) uid limit = .ok l ∧
      l.length ≤ limit ∧
      ∀ d ∈ l, docGet "user_id" d = some (Value.vstr uid) := by
  refine ⟨_, rfl, ?_, ?_⟩
  · simp only [List.length_map, get_documents]
    exact List.length_take_le _ _
  · intro d hd
    obtain ⟨u, hu, rfl⟩ := List.mem_map.1 hd
    rw [get_documents] at hu
    have hu2 := List.mem_of_mem_take hu
    have hpred : docMatches [("user_id", Value.vstr uid)] u = true := by
      simpa using (List.mem_filter.1 hu2).2
    have hget : docGet "user_id" u = some (Value.vstr uid) :=
      (docMatches_iff _ _).1 hpred ("user_id", Value.vstr uid)
        (List.mem_singleton_self _)
    rw [docGet_to_str_id_other _ _ (by decide) (by decide)]
    exact hget

theorem update_plan_ok_inv (db : DB) (p : PlanPayload) (d : Option Doc)
    (r : Option DB) (h : update_plan (some db) p = (.ok d, r)) :
    ∃ n, objectId? p.user_id = some n ∧
      (update_one db.user [("_id", Value.oid n)] "plan" (Value.vstr p.plan)).1 ≠ 0 ∧
      r = some ⟨(update_one db.user [("_id", Value.oid n)] "plan"
        (Value.vstr p.plan)).2, db.character, db.nextId⟩ ∧
      d = to_str_idOpt (find_one
        (update_one db.user [("_id", Value.oid n)] "plan" (Value.vstr p.plan)).2
        [("_id", Value.oid n)]) := by
  by_cases hp : p.plan ∈ (["free", "plus", "pro"] : List String)
  · simp only [update_plan, if_pos hp] at h
    cases hi : update_planInner db p with
    | mk e db2 =>
      rw [hi] at h
      cases e with
      | error ee => simp at h
      | ok dd =>
        simp only [Prod.mk.injEq, Except.ok.injEq] at h
        obtain ⟨hdd, hrr⟩ := h
        cases ho : objectId? p.user_id with
        | none =>
          simp only [update_planInner, ho] at hi
          simp at hi
        | some n =>
          simp only [update_planInner, ho] at hi
          by_cases hz : (update_one db.user [("_id", Value.oid n)] "plan"
              (Value.vstr p.plan)).1 = 0
          · rw [if_pos hz] at hi
            simp at hi
          · rw [if_neg hz] at hi
            simp only [Prod.mk.injEq, Except.ok.injEq] at hi
            obtain ⟨hd1, hd2⟩ := hi
            refine ⟨n, rfl, hz, ?_, ?_⟩
            · rw [← hrr, ← hd2]
            · rw [← hdd, ← hd1]
  · simp only [update_plan, if_neg hp] at h
    simp at h

/-- C10: a successful plan update modifies exactly one stored user document
— the first whose `_id` matches the requested identifier — and within it
exactly the `plan` field, which becomes the requested plan; its other
fields (`_id`, email, username, password_hash, ...) keep their values, the
documents before and after it are untouched, and the character collection
and the identifier counter are unchanged. -/
theorem update_plan_success_frame (db : DB) (p : PlanPayload) (d : Option Doc)
    (db1 : DB) (h : update_plan (some db) p = (.ok d, some db1)) :
    db1.character = db.character ∧ db1.nextId = db.nextId ∧
    ∃ n l1 doc l2,
      objectId? p.user_id = some n ∧
      db.user = l1 ++ doc :: l2 ∧
      docGet "_id" doc = some (Value.oid n) ∧
      db1.user = l1 ++ setKey "plan" (Value.vstr p.plan) doc :: l2 ∧
      docGet "plan" (setKey "plan" (Value.vstr p.plan) doc) =
        some (Value.vstr p.plan) ∧
      ∀ k, k ≠ "plan" →
        docGet k (setKey "plan" (Value.vstr p.plan) doc) = docGet k doc := by
  obtain ⟨n, ho, hnz, hr, hd⟩ := update_plan_ok_inv db p d (some db1) h
  have hdb1 : db1 = ⟨(update_one db.user [("_id", Value.oid n)] "plan"
      (Value.vstr p.plan)).2, db.character, db.nextId⟩ := Option.some.inj hr
  obtain ⟨l1, doc, l2, hsplit, hm, hall, hres⟩ :=
    update_one_found db.user [("_id", Value.oid n)] "plan" (Value.vstr p.plan) hnz
  subst hdb1
  exact ⟨rfl, rfl, n, l1, doc, l2, ho, hsplit,
    (docMatches_iff _ _).1 hm ("_id", Value.oid n) (List.mem_singleton_self _),
    hres, docGet_setKey_same _ _ _, fun k hk => docGet_setKey_other _ _ _ _ hk⟩

theorem update_plan_success_frame_witness :
    update_plan (some dbW) ⟨"1", "pro"⟩ =
      (.ok (some (to_str_id (setKey "plan" (Value.vstr "pro") userDocW))),
       some ⟨[setKey "plan" (Value.vstr "pro") userDocW], [], 2⟩) ∧
    ((⟨[setKey "plan" (Value.vstr "pro") userDocW], [], 2⟩ : DB).character
        = dbW.character ∧
     (⟨[setKey "plan" (Value.vstr "pro") userDocW], [], 2⟩ : DB).nextId
        = dbW.nextId ∧
     ∃ n l1 doc l2,
       objectId? ("1" : String) = some n ∧
       dbW.user = l1 ++ doc :: l2 ∧
       docGet "_id" doc = some (Value.oid n) ∧
       (⟨[setKey "plan" (Value.vstr "pro") userDocW], [], 2⟩ : DB).user =
         l1 ++ setKey "plan" (Value.vstr "pro") doc :: l2 ∧
       docGet "plan" (setKey "plan" (Value.vstr "pro") doc) =
         some (Value.vstr "pro") ∧
       ∀ k, k ≠ "plan" →
         docGet k (setKey "plan" (Value.vstr "pro") doc) = docGet k doc) := by
  have h1 : objectId? ("1" : String) = some 1 := repr_toNat? 1
  have hyp : update_plan (some dbW) ⟨"1", "pro"⟩ =
      (.ok (some (to_str_id (setKey "plan" (Value.vstr "pro") userDocW))),
       some ⟨[setKey "plan" (Value.vstr "pro") userDocW], [], 2⟩) := by
    simp only [update_plan, update_planInner, h1]
    rfl
  exact ⟨hyp, update_plan_success_frame dbW ⟨"1", "pro"⟩ _ _ hyp⟩

theorem oid_of_docIdWF (u : Doc) (h : docIdWF u = true) :
    ∃ n, docGet "_id" u = some (Value.oid n) := by
  rw [docIdWF, Bool.and_eq_true] at h
  obtain ⟨h1, _⟩ := h
  cases hg : docGet "_id" u with
  | none => rw [hg] at h1; exact Bool.noConfusion h1
  | some v =>
    cases v with
    | oid n => exact ⟨n, rfl⟩
    | vstr s => rw [hg] at h1; exact Bool.noConfusion h1
    | vmap l => rw [hg] at h1; exact Bool.noConfusion h1
    | vnull => rw [hg] at h1; exact Bool.noConfusion h1

theorem idTranslated_to_str_id (u : Doc) (n : Nat)
    (h : docGet "_id" u = some (Value.oid n)) : idTranslated (to_str_id u) :=
  ⟨⟨Nat.repr n, (to_str_id_translated u n h).1⟩, (to_str_id_translated u n h).2⟩

/-- C9: assuming the stored-document well-formedness that every document the
gateway ever inserts has (a store-generated object id under `_id`, no `id`
field, ids below the fresh counter), every document in a successful response
of any of the six data endpoints carries a string-typed `id` field and has
had the store's native `_id` field removed. -/
theorem responses_translate_identifier (db : DB)
    (hfresh : db.fresh = true) (hwf : db.storedWF = true) :
    (∀ p d r, signup (some db) p = (.ok (some d), r) → idTranslated d) ∧
    (∀ p d, login (some db) p = .ok d → idTranslated d) ∧
    (∀ s d, me (some db) s = .ok d → idTranslated d) ∧
    (∀ p o d r, generate_character (some db) p o = (.ok (some d), r) →
      idTranslated d) ∧
    (∀ uid lim l d, list_characters (some db) uid lim = .ok l → d ∈ l →
      idTranslated d) ∧
    (∀ p d r, update_plan (some db) p = (.ok (some d), r) → idTranslated d) := by
  have hwf2 := hwf
  rw [DB.storedWF, Bool.and_eq_true] at hwf2
  have hwfU : ∀ u ∈ db.user, docIdWF u = true := List.all_eq_true.1 hwf2.1
  have hwfC : ∀ u ∈ db.character, docIdWF u = true := List.all_eq_true.1 hwf2.2
  refine ⟨?_, ?_, ?_, ?_, ?_, ?_⟩
  · intro p d r h
    by_cases hex : optDocTruthy (find_one db.user
        [("email", Value.vstr p.email)]) = true
    · rw [signup_dup_email db p hex] at h
      simp at h
    · have hex' : optDocTruthy (find_one db.user
          [("email", Value.vstr p.email)]) = false := by simpa using hex
      have hnone := find_one_none_of_not_truthy _ _ _ hex'
      rw [signup_success db p hfresh hnone] at h
      have hd : to_str_id (newUserDoc db p) = d := by
        have h1 := congrArg Prod.fst h
        simpa using h1
      rw [← hd]
      exact idTranslated_to_str_id _ db.nextId (by simp [newUserDoc, docGet])
  · intro p d h
    cases hf : find_one db.user
        [("email", Value.vstr p.email),
         ("password_hash", Value.vstr (hash_password p.password))] with
    | none => simp [login, hf] at h
    | some u =>
      obtain ⟨hmem, hm⟩ := find_one_some _ _ _ hf
      obtain ⟨n, hn⟩ := oid_of_docIdWF u (hwfU u hmem)
      by_cases hu : u.isEmpty = true
      · simp [login, hf, hu] at h
      · have hu' : u.isEmpty = false := by simpa using hu
        have hd : to_str_id u = d := by
          simp [login, hf, hu'] at h
          exact h
        rw [← hd]
        exact idTranslated_to_str_id u n hn
  · intro s d h
    simp only [me] at h
    cases hm : meInner db s with
    | error e => rw [hm] at h; simp at h
    | ok dd =>
      rw [hm] at h
      simp only [Except.ok.injEq] at h
      cases ho : objectId? s with
      | none => simp [meInner, ho] at hm
      | some n =>
        cases hf : find_one db.user [("_id", Value.oid n)] with
        | none => simp [meInner, ho, hf] at hm
        | some u =>
          by_cases hue : u.isEmpty = true
          · simp [meInner, ho, hf, hue] at hm
          · have hue' : u.isEmpty = false := by simpa using hue
            have hdd : to_str_id u = dd := by
              simp [meInner, ho, hf, hue'] at hm
              exact hm
            obtain ⟨hmem, _⟩ := find_one_some _ _ _ hf
            obtain ⟨m, hn⟩ := oid_of_docIdWF u (hwfU u hmem)
            rw [← h, ← hdd]
            exact idTranslated_to_str_id u m hn
  · intro p o d r h
    rw [generate_success db p o hfresh] at h
    have hd : to_str_id (newCharDoc db p o) = d := by
      have h1 := congrArg Prod.fst h
      simpa using h1
    rw [← hd]
    exact idTranslated_to_str_id _ db.nextId (by simp [newCharDoc, docGet])
  · intro uid lim l d hl hd
    have hleq : l = (get_documents db.character
        [("user_id", Value.vstr uid)] lim).map to_str_id := by
      simp only [list_characters, Except.ok.injEq] at hl
      exact hl.symm
    subst hleq
    obtain ⟨u, hu, rfl⟩ := List.mem_map.1 hd
    rw [get_documents] at hu
    have hu2 := List.mem_of_mem_take hu
    have humem := (List.mem_filter.1 hu2).1
    obtain ⟨n, hn⟩ := oid_of_docIdWF u (hwfC u humem)
    exact idTranslated_to_str_id u n hn
  · intro p d r h
    obtain ⟨n, ho, hnz, hr, hd⟩ := update_plan_ok_inv db p (some d) r h
    cases hf : find_one (update_one db.user [("_id", Value.oid n)] "plan"
        (Value.vstr p.plan)).2 [("_id", Value.oid n)] with
    | none => rw [hf] at hd; simp [to_str_idOpt] at hd
    | some u =>
      rw [hf] at hd
      simp only [to_str_idOpt, Option.some.injEq] at hd
      obtain ⟨hmem, _⟩ := find_one_some _ _ _ hf
      obtain ⟨w, hw, hor⟩ := mem_update_one _ _ _ _ u hmem
      obtain ⟨m, hmid⟩ := oid_of_docIdWF w (hwfU w hw)
      have hu_oid : docGet "_id" u = some (Value.oid m) := by
        rcases hor with rfl | rfl
        · exact hmid
        · rw [docGet_setKey_other _ _ _ _ (by decide)]
          exact hmid
      rw [hd]
      exact idTranslated_to_str_id u m hu_oid

theorem responses_translate_identifier_witness :
    dbW.fresh = true ∧ dbW.storedWF = true ∧
    ((∀ p d r, signup (some dbW) p = (.ok (some d), r) → idTranslated d) ∧
     (∀ p d, login (some dbW) p = .ok d → idTranslated d) ∧
     (∀ s d, me (some dbW) s = .ok d → idTranslated d) ∧
     (∀ p o d r, generate_character (some dbW) p o = (.ok (some d), r) →
       idTranslated d) ∧
     (∀ uid lim l d, list_characters (some dbW) uid lim = .ok l → d ∈ l →
       idTranslated d) ∧
     (∀ p d r, update_plan (some dbW) p = (.ok (some d), r) → idTranslated d)) :=
  ⟨by decide, by decide,
   responses_translate_identifier dbW (by decide) (by decide)⟩
